import Mathlib

/-!
Verification of the vsxploit interaction tool (src/main.py) against its
natural-language specification.

We shallowly embed the relevant parts of main.py:
text is `List Char` (Python str, ASCII fragment relevant here), the ANSI
stripper is a faithful model of the Python regex
  (?:ESC[@-Z backslash-to-underscore]|ESC[ digits/semicolons letter
    |ESC] [^BEL]* (BEL|ESC backslash)|ESC[P^_].*?ESC backslash)
as applied by re.sub with leftmost scanning and ordered alternation, and the
two driver loops (subprocess based on Windows, pexpect based on Unix) become
pure functions from the incoming chunks, the configured detectors and a
network oracle to the list of observable events they perform.
-/

set_option autoImplicit false

namespace Vsxploit

/-- Text as Python sees it: a sequence of characters. -/
abbrev Str := List Char

/-- Converts a Lean string literal to the character list model. -/
def strData (s : String) : Str := s.data

/-- The ESC character 0x1B. -/
def escChar : Char := Char.ofNat 27

/-- ASCII whitespace as recognized by Python str.strip with no argument
(the Unicode cases do not occur in the modelled data). -/
def pyWhitespace (c : Char) : Bool :=
  c = ' ' || c = '\t' || c = '\n' || c = '\r' || c = '\x0b' || c = '\x0c'

/-- Python str.strip with no argument: remove leading and trailing whitespace. -/
def pyStrip (s : Str) : Str :=
  ((s.dropWhile pyWhitespace).reverse.dropWhile pyWhitespace).reverse

/-- Python str.strip with a character-set argument: remove from both ends
every character that occurs in the set. This is what the source line
cleaned_print_line.strip of the caret artifact actually does. -/
def pyStripChars (chars s : Str) : Str :=
  ((s.dropWhile (fun c => chars.contains c)).reverse.dropWhile
      (fun c => chars.contains c)).reverse

/-- Python str.lower on the ASCII range (action identifiers are ASCII). -/
def pyLower (s : Str) : Str := s.map Char.toLower

/-- Helper for the Python substring test: does needle occur in hay. -/
def listContains (hay needle : Str) : Bool :=
  needle.isPrefixOf hay ||
    match hay with
    | [] => false
    | _ :: t => listContains t needle

/-- Python membership test: needle in hay. -/
def pyIn (needle hay : Str) : Bool := listContains hay needle

/-- Finds the first occurrence of sep in s, returning the text before it and
the text after it. -/
def splitOnceAux (sep : Str) : Str → Option (Str × Str)
  | [] => none
  | c :: t =>
    if sep.isPrefixOf (c :: t) then some ([], (c :: t).drop sep.length)
    else (splitOnceAux sep t).map (fun p => (c :: p.1, p.2))

/-- Python s.split(sep, 1) for a nonempty separator: a two-element list when
sep occurs in s, otherwise the one-element list holding s itself. -/
def pySplitOnce (s sep : Str) : List Str :=
  match splitOnceAux sep s with
  | some p => [p.1, p.2]
  | none => [s]

/-! ### The ANSI stripper, src/main.py lines 83 to 87

The regex has four alternatives tried in order at each scan position.
The first one, ESC followed by one character in the class from at-sign to Z
or from backslash to underscore, also covers the opening characters of the
OSC and DCS alternatives, so those are modelled exactly as written but are
in fact unreachable. -/

/-- The character class of the first alternative: at-sign through Z union
backslash through underscore. -/
def inEscSingleClass (c : Char) : Bool :=
  ('@' ≤ c && c ≤ 'Z') || ('\\' ≤ c && c ≤ '_')

/-- Characters matched inside a CSI parameter run: digits and semicolon. -/
def isDigitOrSemi (c : Char) : Bool := ('0' ≤ c && c ≤ '9') || c = ';'

/-- An ASCII letter, the final byte of a CSI sequence in the regex. -/
def isAsciiAlpha (c : Char) : Bool := ('a' ≤ c && c ≤ 'z') || ('A' ≤ c && c ≤ 'Z')

/-- Number of characters the CSI alternative consumes after ESC [ :
the greedy run of digits and semicolons must be followed by a letter.
The classes are disjoint so backtracking never finds another split. -/
def csiTail (s : Str) : Option Nat :=
  let run := (s.takeWhile isDigitOrSemi).length
  match s.drop run with
  | c :: _ => if isAsciiAlpha c then some (run + 1) else none
  | [] => none

/-- Does s begin with ESC backslash, the ST terminator. -/
def startsWithEscBackslash (s : Str) : Bool :=
  match s with
  | a :: b :: _ => a = escChar && b = '\\'
  | _ => false

/-- Index of the last occurrence of ESC backslash in s, if any. -/
def lastEscBackslash : Str → Option Nat
  | [] => none
  | c :: t =>
    match lastEscBackslash t with
    | some j => some (j + 1)
    | none => if startsWithEscBackslash (c :: t) then some 0 else none

/-- Number of characters the OSC alternative consumes after ESC ] :
the greedy non-BEL run ends at the first BEL when one exists, otherwise
backtracking settles on the last ESC backslash pair. -/
def oscTail (s : Str) : Option Nat :=
  match s.findIdx? (fun c => c = '\x07') with
  | some i => some (i + 1)
  | none => (lastEscBackslash s).map (fun j => j + 2)

/-- Number of characters the DCS alternative consumes after ESC P, ESC caret
or ESC underscore: the lazy dot run stops at the first ESC backslash and the
dot cannot cross a newline. -/
def dcsTail : Str → Option Nat
  | [] => none
  | c :: t =>
    if startsWithEscBackslash (c :: t) then some 2
    else if c = '\n' then none
    else (dcsTail t).map (fun n => n + 1)

/-- The length of the regex match starting at the head of s, if any,
alternatives tried in the order they appear in the source pattern. -/
def ansiMatch : Str → Option Nat
  | e :: c :: rest =>
    if e = escChar then
      if inEscSingleClass c then some 2
      else if c = '[' then (csiTail rest).map (fun n => n + 2)
      else if c = ']' then (oscTail rest).map (fun n => n + 2)
      else if c = 'P' || c = '^' || c = '_' then (dcsTail rest).map (fun n => n + 2)
      else none
    else none
  | _ => none

/-- One left-to-right substitution pass of re.sub: at each position either a
match is removed and scanning resumes after it, or one character is kept.
The fuel argument bounds the number of steps; every step consumes at least
one character, so fuel equal to the length of the input is always enough. -/
def ansiSubF : Nat → Str → Str
  | 0, s => s
  | _ + 1, [] => []
  | f + 1, c :: t =>
    match ansiMatch (c :: t) with
    | some k => ansiSubF f ((c :: t).drop k)
    | none => c :: ansiSubF f t

/-- strip_ansi_codes from src/main.py lines 83 to 87. -/
def strip_ansi_codes (s : Str) : Str := ansiSubF s.length s

/-! ### Data model -/

/-- One detector rule as read from detector.yaml: the fields the loops use
via detector.get. A missing match key is modelled as none. -/
structure Detector where
  matchKey : Option Str
  upload : Bool
  action : List Str
deriving DecidableEq, Repr

/-- The responses the network gives to one update call: the status, sha and
decoded content of the GET, and the status of the PUT. The base64 transport
coding of the content, a bijection on the wire, is elided. -/
structure Net where
  getStatus : Nat
  sha : Str
  content : Str
  putStatus : Nat
deriving DecidableEq, Repr

/-- The body of the conditional write issued to the remote store. -/
structure PutRequest where
  content : Str
  sha : Str
deriving DecidableEq, Repr

/-- A Python exception escaping the modelled code. -/
inductive PyErr where
  | indexError
  | exception (msg : Str)
deriving DecidableEq, Repr

/-- The observable side effects of the loops that the claims talk about:
the operator-facing line print, the match report, the remote fetch and
write traffic, input sent to the child, the unknown-action diagnostic and
the loop termination reports. Routine debug prints are elided. -/
inductive Event where
  | printLine (s : Str)
  | detected (kw : Str)
  | githubGetFailed (status : Nat)
  | githubPut (req : PutRequest)
  | githubPutOk
  | githubPutFailed (status : Nat)
  | send (s : Str)
  | unknownAction (a : Str)
  | processEnded
  | exceptionCaught
deriving DecidableEq, Repr

/-! ### update_github_file, src/main.py lines 135 to 168 -/

/-- update_github_file: on a non-200 GET it prints a warning and returns
without writing; otherwise it builds the new content as the old content,
a newline, the whitespace-stripped message and a newline, and issues a PUT
carrying the sha obtained by the GET, reporting the PUT outcome. -/
def update_github_file (message : Str) (net : Net) : List Event :=
  if net.getStatus ≠ 200 then [.githubGetFailed net.getStatus]
  else
    let new_content := net.content ++ strData "\n" ++ pyStrip message ++ strData "\n"
    .githubPut ⟨new_content, net.sha⟩ ::
      (if net.putStatus = 200 ∨ net.putStatus = 201 then [.githubPutOk]
       else [.githubPutFailed net.putStatus])

/-! ### Reaction dispatch -/

/-- The action dispatch of the Unix loop, src/main.py lines 251 to 281:
case-insensitive keys enter, down, up, left, right, the string prefix form,
and an explicit unknown-action diagnostic. The string branch indexes entry 1
of a case-sensitive split, which raises IndexError when the prefix matched
only after lowercasing. -/
def unix_dispatch_action (a : Str) : Except PyErr (List Event) :=
  if pyLower a = strData "enter" then .ok [.send (strData "\r")]
  else if pyLower a = strData "down" then .ok [.send (strData "\x1b[B")]
  else if pyLower a = strData "up" then .ok [.send (strData "\x1b[A")]
  else if pyLower a = strData "left" then .ok [.send (strData "\x1b[D")]
  else if pyLower a = strData "right" then .ok [.send (strData "\x1b[C")]
  else if (strData "string:").isPrefixOf (pyLower a) then
    match pySplitOnce a (strData "string:") with
    | [_, v] => .ok [.send v]
    | _ => .error .indexError
  else .ok [.unknownAction a]

/-- The action dispatch of the Windows loop, src/main.py lines 199 to 210:
only enter and the string prefix form are handled, every other action falls
through silently. -/
def windows_dispatch_action (a : Str) : Except PyErr (List Event) :=
  if pyLower a = strData "enter" then .ok [.send (strData "\n")]
  else if (strData "string:").isPrefixOf (pyLower a) then
    match pySplitOnce a (strData "string:") with
    | [_, v] => .ok [.send v]
    | _ => .error .indexError
  else .ok []

/-- Runs a list of actions through a dispatcher, keeping the events emitted
before a raised exception and reporting the exception, which aborts the
rest of the list. -/
def dispatch_actions (dispatch : Str → Except PyErr (List Event)) :
    List Str → List Event × Option PyErr
  | [] => ([], none)
  | a :: rest =>
    match dispatch a with
    | .error e => ([], some e)
    | .ok evs =>
      let r := dispatch_actions dispatch rest
      (evs ++ r.1, r.2)

/-! ### The two driver loops -/

/-- The caret artifact literal the Unix loop looks for. -/
def caretArtifact : Str := strData "^[[B"

/-- The cleaning the Unix loop applies both to the printed line (lines
222 to 225) and to the forwarded line (lines 239 to 242): strip ANSI codes,
then, when the result starts with the caret artifact, remove the characters
of that artifact from both ends via str.strip with an argument. -/
def unix_cleaned (line : Str) : Str :=
  let c := strip_ansi_codes line
  if caretArtifact.isPrefixOf c then pyStripChars caretArtifact c else c

/-- One detector step of the Unix loop, src/main.py lines 231 to 281: the
keyword must be present and nonempty and is searched in the raw line; on a
match the match is reported, the cleaned line is forwarded when upload is
set (consuming one network response), and the actions run. -/
def unix_process_detector (oracle : Nat → Net) (line : Str) (d : Detector)
    (k : Nat) : List Event × Nat × Option PyErr :=
  match d.matchKey with
  | none => ([], k, none)
  | some kw =>
    if !kw.isEmpty && pyIn kw line then
      let up := if d.upload then (update_github_file (unix_cleaned line) (oracle k), k + 1)
                else ([], k)
      let acts := dispatch_actions unix_dispatch_action d.action
      (.detected kw :: up.1 ++ acts.1, up.2, acts.2)
    else ([], k, none)

/-- Folds the Unix detector step over the detector list in order, stopping
at the first raised exception. -/
def unix_process_detectors (oracle : Nat → Net) (line : Str) :
    List Detector → Nat → List Event × Nat × Option PyErr
  | [], k => ([], k, none)
  | d :: rest, k =>
    let r := unix_process_detector oracle line d k
    match r.2.2 with
    | some e => (r.1, r.2.1, some e)
    | none =>
      let r2 := unix_process_detectors oracle line rest r.2.1
      (r.1 ++ r2.1, r2.2.1, r2.2.2)

/-- One iteration body of the Unix loop, src/main.py lines 219 to 281:
whitespace-strip the chunk, compute the cleaned print line, skip empty
chunks, print the cleaned line, then run the detectors against the raw
stripped chunk. -/
def unix_process_line (oracle : Nat → Net) (ds : List Detector) (raw : Str)
    (k : Nat) : List Event × Nat × Option PyErr :=
  let line := pyStrip raw
  let cleaned_print_line := unix_cleaned line
  if line = [] then ([], k, none)
  else
    let r := unix_process_detectors oracle line ds k
    (.printLine cleaned_print_line :: r.1, r.2.1, r.2.2)

/-- The Unix read loop over the incoming chunks: an exception inside the
body is caught, reported and breaks the loop; end of stream reports session
termination. -/
def unix_loop (oracle : Nat → Net) (ds : List Detector) :
    List Str → Nat → List Event
  | [], _ => [.processEnded]
  | raw :: rest, k =>
    let r := unix_process_line oracle ds raw k
    match r.2.2 with
    | some _ => r.1 ++ [.exceptionCaught]
    | none => r.1 ++ unix_loop oracle ds rest r.2.1

/-- One detector step of the Windows loop, src/main.py lines 183 to 210:
identical structure, but the keyword is searched in the cleaned line, the
cleaned line itself is forwarded, and the Windows dispatcher runs. -/
def windows_process_detector (oracle : Nat → Net) (cleaned : Str)
    (d : Detector) (k : Nat) : List Event × Nat × Option PyErr :=
  match d.matchKey with
  | none => ([], k, none)
  | some kw =>
    if !kw.isEmpty && pyIn kw cleaned then
      let up := if d.upload then (update_github_file cleaned (oracle k), k + 1)
                else ([], k)
      let acts := dispatch_actions windows_dispatch_action d.action
      (.detected kw :: up.1 ++ acts.1, up.2, acts.2)
    else ([], k, none)

/-- Folds the Windows detector step over the detector list in order. -/
def windows_process_detectors (oracle : Nat → Net) (cleaned : Str) :
    List Detector → Nat → List Event × Nat × Option PyErr
  | [], k => ([], k, none)
  | d :: rest, k =>
    let r := windows_process_detector oracle cleaned d k
    match r.2.2 with
    | some e => (r.1, r.2.1, some e)
    | none =>
      let r2 := windows_process_detectors oracle cleaned rest r.2.1
      (r.1 ++ r2.1, r2.2.1, r2.2.2)

/-- One iteration body of the Windows loop, src/main.py lines 176 to 210:
the line is whitespace-stripped then ANSI-stripped, printed, and the
detectors run against that cleaned form. -/
def windows_process_line (oracle : Nat → Net) (ds : List Detector)
    (raw : Str) (k : Nat) : List Event × Nat × Option PyErr :=
  let cleaned := strip_ansi_codes (pyStrip raw)
  let r := windows_process_detectors oracle cleaned ds k
  (.printLine cleaned :: r.1, r.2.1, r.2.2)

/-- The Windows read loop: readline returning an empty string means end of
stream and breaks; an exception in the body propagates out of the loop. -/
def windows_loop (oracle : Nat → Net) (ds : List Detector) :
    List Str → Nat → List Event × Option PyErr
  | [], _ => ([], none)
  | raw :: rest, k =>
    if raw = [] then ([], none)
    else
      let r := windows_process_line oracle ds raw k
      match r.2.2 with
      | some e => (r.1, some e)
      | none =>
        let r2 := windows_loop oracle ds rest r.2.1
        (r.1 ++ r2.1, r2.2)

/-! ### The entry point, src/main.py lines 294 to 303

The YAML loading at lines 31 and 32 runs at import time, before the
try block of the main guard; an exception there is uncaught and makes the
interpreter exit with status 1. The main guard wraps the download and the
platform loop in a try whose except clause only prints, after which the
script falls off the end and the interpreter exits with status 0. -/

/-- The body of the try block: resolve the binary then run a driver. -/
def main_try (download : Except PyErr Str) (run : Str → Except PyErr Unit) :
    Except PyErr Unit :=
  match download with
  | .error e => .error e
  | .ok cli => run cli

/-- The process exit status as a function of the import-time config load
and the main body. -/
def process_exit_code (importLoad : Except PyErr Unit)
    (download : Except PyErr Str) (run : Str → Except PyErr Unit) : Nat :=
  match importLoad with
  | .error _ => 1
  | .ok _ =>
    match main_try download run with
    | .error _ => 0
    | .ok _ => 0

/-! ### Derived notions used to state the claims -/

/-- The match test the loops apply to one detector against a target line:
detector.get of the match key must be truthy and occur in the target. -/
def detectorMatches (target : Str) (d : Detector) : Bool :=
  match d.matchKey with
  | none => false
  | some kw => !kw.isEmpty && pyIn kw target

/-- The Rule Set evaluation of the specification: the matching rules in
configured order. -/
def evaluate (target : Str) (ds : List Detector) : List Detector :=
  ds.filter (detectorMatches target)

/-- The match text of a detector, empty when absent. -/
def keywordOf (d : Detector) : Str := d.matchKey.getD []

/-- The keywords reported as detected in an event trace, in trace order. -/
def detectedKeywords (evs : List Event) : List Str :=
  evs.filterMap (fun e => match e with | .detected kw => some kw | _ => none)

/-- Is an Except value a normal return. -/
def exceptOk (r : Except PyErr (List Event)) : Bool :=
  match r with
  | .ok _ => true
  | .error _ => false

/-- Modelled from the spec, for comparison in the counterexample to the
claim about the caret artifact: trimming the artifact from the front of the
line only. -/
def spec_front_trim (c : Str) : Str :=
  if caretArtifact.isPrefixOf c then c.drop caretArtifact.length else c

/-! ### Helper lemmas -/

/-- Two cons lists with different heads differ. -/
theorem cons_ne_of_head {a b : Char} {x y : Str} (h : a ≠ b) : a :: x ≠ b :: y := by
  intro he
  injection he with h1 _
  exact h h1

/-- The Python substring test agrees with the infix relation on lists. -/
theorem pyIn_iff_infix (needle hay : Str) : pyIn needle hay = true ↔ needle <:+: hay := by
  induction hay with
  | nil =>
    simp only [pyIn, listContains, Bool.or_false]
    rw [List.isPrefixOf_iff_prefix]
    exact ⟨fun h => h.isInfix, fun h => (List.infix_nil.mp h) ▸ List.prefix_refl _⟩
  | cons c t ih =>
    simp only [pyIn, listContains, Bool.or_eq_true] at *
    rw [List.isPrefixOf_iff_prefix, List.infix_cons_iff, ih]

/-- A list is a Boolean prefix of itself followed by anything. -/
theorem isPrefixOf_append_self (p s : Str) : p.isPrefixOf (p ++ s) = true :=
  List.isPrefixOf_iff_prefix.mpr (List.prefix_append p s)

/-- Splitting a string that begins with the separator cuts right after it. -/
theorem splitOnceAux_append_self (t : Str) :
    splitOnceAux (strData "string:") (strData "string:" ++ t) = some ([], t) := by
  rw [show strData "string:" ++ t = 's' :: (strData "tring:" ++ t) from rfl]
  unfold splitOnceAux
  rw [if_pos, show ('s' : Char) :: (strData "tring:" ++ t) = strData "string:" ++ t from rfl,
    List.drop_left]
  rw [show ('s' : Char) :: (strData "tring:" ++ t) = strData "string:" ++ t from rfl]
  exact isPrefixOf_append_self _ _

/-- Lowercasing distributes over concatenation and fixes the literal
string-colon separator. -/
theorem pyLower_stringColon_append (t : Str) :
    pyLower (strData "string:" ++ t) = strData "string:" ++ pyLower t := by
  unfold pyLower
  rw [List.map_append]
  congr 1

/-- The match alternatives all require the scan position to hold ESC. -/
theorem ansiMatch_none_of_ne {c : Char} (t : Str) (h : c ≠ escChar) :
    ansiMatch (c :: t) = none := by
  cases t with
  | nil => rfl
  | cons c2 rest => simp [ansiMatch, h]

/-- With enough fuel, the substitution pass leaves ESC-free text unchanged. -/
theorem ansiSubF_clean : ∀ (f : Nat) (s : Str), s.length ≤ f →
    (∀ c ∈ s, c ≠ escChar) → ansiSubF f s = s := by
  intro f
  induction f with
  | zero =>
    intro s hs _
    rw [List.length_eq_zero.mp (Nat.le_zero.mp hs)]
    rfl
  | succ f ih =>
    intro s hs hclean
    cases s with
    | nil => rfl
    | cons c t =>
      have hc : c ≠ escChar := hclean c (List.mem_cons_self c t)
      rw [show ansiSubF (f + 1) (c :: t)
            = (match ansiMatch (c :: t) with
               | some k => ansiSubF f ((c :: t).drop k)
               | none => c :: ansiSubF f t) from rfl,
        ansiMatch_none_of_ne t hc]
      have := ih t (Nat.le_of_succ_le_succ hs)
        (fun x hx => hclean x (List.mem_cons_of_mem c hx))
      rw [this]

/-- Detected keywords distribute over trace concatenation. -/
theorem detectedKeywords_append (a b : List Event) :
    detectedKeywords (a ++ b) = detectedKeywords a ++ detectedKeywords b :=
  List.filterMap_append a b _

/-- The empty trace reports nothing. -/
theorem detectedKeywords_nil : detectedKeywords [] = [] := rfl

/-- A detection report at the head of a trace contributes its keyword. -/
theorem detectedKeywords_cons_detected (kw : Str) (evs : List Event) :
    detectedKeywords (.detected kw :: evs) = kw :: detectedKeywords evs := rfl

/-- The update traffic never reports a detected keyword. -/
theorem detectedKeywords_update (msg : Str) (net : Net) :
    detectedKeywords (update_github_file msg net) = [] := by
  unfold update_github_file
  split
  · rfl
  · split <;> rfl

/-- A normal return of the Unix dispatcher reports no detected keyword. -/
theorem unix_dispatch_no_detected (a : Str) (evs : List Event)
    (h : unix_dispatch_action a = .ok evs) : detectedKeywords evs = [] := by
  unfold unix_dispatch_action at h
  repeat' split at h
  all_goals first
    | (injection h with h1; rw [← h1]; rfl)
    | cases h

/-- A normal return of the Windows dispatcher reports no detected keyword. -/
theorem windows_dispatch_no_detected (a : Str) (evs : List Event)
    (h : windows_dispatch_action a = .ok evs) : detectedKeywords evs = [] := by
  unfold windows_dispatch_action at h
  repeat' split at h
  all_goals first
    | (injection h with h1; rw [← h1]; rfl)
    | cases h

/-- A run of actions through a dispatcher that never reports detections
itself reports no detections. -/
theorem dispatch_actions_no_detected (f : Str → Except PyErr (List Event))
    (hf : ∀ a evs, f a = .ok evs → detectedKeywords evs = []) :
    ∀ as, detectedKeywords (dispatch_actions f as).1 = [] := by
  intro as
  induction as with
  | nil => rfl
  | cons a rest ih =>
    unfold dispatch_actions
    cases hfa : f a with
    | error e => rfl
    | ok evs =>
      show detectedKeywords (evs ++ (dispatch_actions f rest).1) = []
      rw [detectedKeywords_append, hf a evs hfa, ih]
      rfl

/-- When every action dispatches normally the run raises no exception. -/
theorem dispatch_actions_ok (f : Str → Except PyErr (List Event))
    (as : List Str) (h : ∀ a ∈ as, exceptOk (f a) = true) :
    (dispatch_actions f as).2 = none := by
  induction as with
  | nil => rfl
  | cons a rest ih =>
    unfold dispatch_actions
    cases hfa : f a with
    | error e =>
      have := h a (List.mem_cons_self a rest)
      rw [hfa] at this
      cases this
    | ok evs =>
      show (evs ++ (dispatch_actions f rest).1, (dispatch_actions f rest).2).2 = none
      exact ih (fun x hx => h x (List.mem_cons_of_mem a hx))

/-- One Unix detector step: when its actions dispatch normally it reports
the keyword exactly when the match test succeeds, and raises nothing. -/
theorem unix_process_detector_spec (oracle : Nat → Net) (line : Str)
    (d : Detector) (k : Nat)
    (hok : ∀ a ∈ d.action, exceptOk (unix_dispatch_action a) = true) :
    detectedKeywords (unix_process_detector oracle line d k).1
        = (if detectorMatches line d then [keywordOf d] else [])
    ∧ (unix_process_detector oracle line d k).2.2 = none := by
  obtain ⟨mk, upl, acts⟩ := d
  have hacts : detectedKeywords (dispatch_actions unix_dispatch_action acts).1 = [] :=
    dispatch_actions_no_detected _ unix_dispatch_no_detected acts
  have herr : (dispatch_actions unix_dispatch_action acts).2 = none :=
    dispatch_actions_ok _ acts hok
  cases mk with
  | none => exact ⟨rfl, rfl⟩
  | some kw =>
    by_cases hc : (!kw.isEmpty && pyIn kw line) = true
    · cases upl <;>
        simp [unix_process_detector, detectorMatches, keywordOf, hc,
          detectedKeywords_cons_detected, detectedKeywords_append,
          detectedKeywords_update, detectedKeywords_nil, hacts, herr]
    · simp [unix_process_detector, detectorMatches, keywordOf, hc,
        detectedKeywords_nil]

/-- One Windows detector step: same characterization. -/
theorem windows_process_detector_spec (oracle : Nat → Net) (cleaned : Str)
    (d : Detector) (k : Nat)
    (hok : ∀ a ∈ d.action, exceptOk (windows_dispatch_action a) = true) :
    detectedKeywords (windows_process_detector oracle cleaned d k).1
        = (if detectorMatches cleaned d then [keywordOf d] else [])
    ∧ (windows_process_detector oracle cleaned d k).2.2 = none := by
  obtain ⟨mk, upl, acts⟩ := d
  have hacts : detectedKeywords (dispatch_actions windows_dispatch_action acts).1 = [] :=
    dispatch_actions_no_detected _ windows_dispatch_no_detected acts
  have herr : (dispatch_actions windows_dispatch_action acts).2 = none :=
    dispatch_actions_ok _ acts hok
  cases mk with
  | none => exact ⟨rfl, rfl⟩
  | some kw =>
    by_cases hc : (!kw.isEmpty && pyIn kw cleaned) = true
    · cases upl <;>
        simp [windows_process_detector, detectorMatches, keywordOf, hc,
          detectedKeywords_cons_detected, detectedKeywords_append,
          detectedKeywords_update, detectedKeywords_nil, hacts, herr]
    · simp [windows_process_detector, detectorMatches, keywordOf, hc,
        detectedKeywords_nil]

/-- The Unix detector fold reports exactly the matching detectors, in
configured order, when every action dispatches normally. -/
theorem unix_process_detectors_spec (oracle : Nat → Net) (line : Str) :
    ∀ (ds : List Detector) (k : Nat),
      (∀ d ∈ ds, ∀ a ∈ d.action, exceptOk (unix_dispatch_action a) = true) →
      detectedKeywords (unix_process_detectors oracle line ds k).1
          = (evaluate line ds).map keywordOf
      ∧ (unix_process_detectors oracle line ds k).2.2 = none := by
  intro ds
  induction ds with
  | nil => exact fun k _ => ⟨rfl, rfl⟩
  | cons d rest ih =>
    intro k h
    have hd := unix_process_detector_spec oracle line d k
      (fun a ha => h d (List.mem_cons_self d rest) a ha)
    simp only [unix_process_detectors]
    rw [hd.2]
    have ihk := ih (unix_process_detector oracle line d k).2.1
      (fun x hx a ha => h x (List.mem_cons_of_mem d hx) a ha)
    constructor
    · show detectedKeywords ((unix_process_detector oracle line d k).1
          ++ (unix_process_detectors oracle line rest
                (unix_process_detector oracle line d k).2.1).1) = _
      rw [detectedKeywords_append, hd.1, ihk.1]
      unfold evaluate
      rw [List.filter_cons]
      by_cases hm : detectorMatches line d = true
      · rw [if_pos hm, if_pos hm]
        rfl
      · rw [if_neg hm, if_neg hm]
        rfl
    · exact ihk.2

/-- The Windows detector fold reports exactly the matching detectors, in
configured order, when every action dispatches normally. -/
theorem windows_process_detectors_spec (oracle : Nat → Net) (cleaned : Str) :
    ∀ (ds : List Detector) (k : Nat),
      (∀ d ∈ ds, ∀ a ∈ d.action, exceptOk (windows_dispatch_action a) = true) →
      detectedKeywords (windows_process_detectors oracle cleaned ds k).1
          = (evaluate cleaned ds).map keywordOf
      ∧ (windows_process_detectors oracle cleaned ds k).2.2 = none := by
  intro ds
  induction ds with
  | nil => exact fun k _ => ⟨rfl, rfl⟩
  | cons d rest ih =>
    intro k h
    have hd := windows_process_detector_spec oracle cleaned d k
      (fun a ha => h d (List.mem_cons_self d rest) a ha)
    simp only [windows_process_detectors]
    rw [hd.2]
    have ihk := ih (windows_process_detector oracle cleaned d k).2.1
      (fun x hx a ha => h x (List.mem_cons_of_mem d hx) a ha)
    constructor
    · show detectedKeywords ((windows_process_detector oracle cleaned d k).1
          ++ (windows_process_detectors oracle cleaned rest
                (windows_process_detector oracle cleaned d k).2.1).1) = _
      rw [detectedKeywords_append, hd.1, ihk.1]
      unfold evaluate
      rw [List.filter_cons]
      by_cases hm : detectorMatches cleaned d = true
      · rw [if_pos hm, if_pos hm]
        rfl
      · rw [if_neg hm, if_neg hm]
        rfl
    · exact ihk.2

/-- A one-detector Unix fold that raises nothing is the detector step. -/
theorem unix_process_detectors_one_ok (oracle : Nat → Net) (line : Str)
    (d : Detector) (k : Nat)
    (h : (unix_process_detector oracle line d k).2.2 = none) :
    unix_process_detectors oracle line [d] k
      = ((unix_process_detector oracle line d k).1,
         (unix_process_detector oracle line d k).2.1, none) := by
  simp only [unix_process_detectors]
  rw [h, List.append_nil]

/-- A one-detector Windows fold that raises nothing is the detector step. -/
theorem windows_process_detectors_one_ok (oracle : Nat → Net) (cleaned : Str)
    (d : Detector) (k : Nat)
    (h : (windows_process_detector oracle cleaned d k).2.2 = none) :
    windows_process_detectors oracle cleaned [d] k
      = ((windows_process_detector oracle cleaned d k).1,
         (windows_process_detector oracle cleaned d k).2.1, none) := by
  simp only [windows_process_detectors]
  rw [h, List.append_nil]

/-! ### C2 -/

/-- C2 counterexample: the control-sequence stripper is not idempotent.
On the input ESC ESC [ A A one pass removes the CSI sequence ESC [ A and
leaves ESC A, which a second pass removes entirely. -/
theorem C2_counterexample :
    strip_ansi_codes (strip_ansi_codes (strData "\x1b\x1b[AA"))
      ≠ strip_ansi_codes (strData "\x1b\x1b[AA") := by decide

/-- C2 amended: stripping is a no-op, and hence idempotent, on text that
contains no ESC character; full idempotence fails because removing a match
can bring an ESC together with a following letter into a new match. -/
theorem C2_amended (s : Str) (h : ∀ c ∈ s, c ≠ escChar) :
    strip_ansi_codes s = s
    ∧ strip_ansi_codes (strip_ansi_codes s) = strip_ansi_codes s := by
  have h1 : strip_ansi_codes s = s := ansiSubF_clean s.length s (Nat.le_refl _) h
  exact ⟨h1, by rw [h1]; exact h1⟩

/-- C2 witness: the amended statement applied to the clean text hello. -/
theorem C2_witness :
    (∀ c ∈ strData "hello", c ≠ escChar)
    ∧ strip_ansi_codes (strData "hello") = strData "hello" :=
  ⟨by decide, (C2_amended (strData "hello") (by decide)).1⟩

/-! ### C9 -/

/-- C9: in both drivers a detector whose match field is missing, None or
the empty string never matches any line: the rule contributes no events, no
upload and no error, even though the empty string occurs in every line. -/
theorem C9_falsy_match_never_fires :
    ∀ (oracle : Nat → Net) (line : Str) (k : Nat) (upl : Bool) (acts : List Str),
      unix_process_detector oracle line ⟨none, upl, acts⟩ k = ([], k, none)
      ∧ unix_process_detector oracle line ⟨some [], upl, acts⟩ k = ([], k, none)
      ∧ windows_process_detector oracle line ⟨none, upl, acts⟩ k = ([], k, none)
      ∧ windows_process_detector oracle line ⟨some [], upl, acts⟩ k = ([], k, none)
      ∧ pyIn [] line = true := by
  intro oracle line k upl acts
  refine ⟨rfl, rfl, rfl, rfl, ?_⟩
  cases line <;> simp [pyIn, listContains, List.isPrefixOf]

/-! ### C10 -/

/-- C10 counterexample: not every action whose separator matches only
case-insensitively raises. The action String colon string colon x has a
prefix matching the separator only after lowercasing, yet the
case-sensitive split finds the later literal occurrence of the separator,
so both dispatchers send the text x instead of failing with an
out-of-bounds error. -/
theorem C10_counterexample :
    unix_dispatch_action (strData "String:string:x") = .ok [.send (strData "x")]
    ∧ windows_dispatch_action (strData "String:string:x") = .ok [.send (strData "x")]
    ∧ (strData "string:").isPrefixOf (strData "String:string:x") = false
    ∧ (strData "string:").isPrefixOf (pyLower (strData "String:string:x")) = true :=
  ⟨rfl, rfl, by decide, by decide⟩

/-- C10 amended: reaction identifiers are recognized after lowercasing,
and the literal payload is cut out of the original action string by a
case-sensitive split on the lowercase separator at its first occurrence.
For every action that is the lowercase separator followed by any text,
both dispatchers send exactly that text. For every action whose lowercased
form starts with the separator: when the separator occurs nowhere in the
original action case-sensitively, the index into the one-element split
result raises IndexError in both dispatchers and nothing is sent; when it
does occur, both dispatchers send the text after its first case-sensitive
occurrence. -/
theorem C10_amended :
    (∀ t : Str,
        unix_dispatch_action (strData "string:" ++ t) = .ok [.send t]
        ∧ windows_dispatch_action (strData "string:" ++ t) = .ok [.send t])
    ∧ (∀ a : Str, (strData "string:").isPrefixOf (pyLower a) = true →
        (splitOnceAux (strData "string:") a = none →
            unix_dispatch_action a = .error .indexError
            ∧ windows_dispatch_action a = .error .indexError)
        ∧ (∀ pre post, splitOnceAux (strData "string:") a = some (pre, post) →
            unix_dispatch_action a = .ok [.send post]
            ∧ windows_dispatch_action a = .ok [.send post])) := by
  constructor
  · intro t
    have hlow := pyLower_stringColon_append t
    have hpre : (strData "string:").isPrefixOf (pyLower (strData "string:" ++ t)) = true := by
      rw [hlow]
      exact isPrefixOf_append_self _ _
    have hsplit : pySplitOnce (strData "string:" ++ t) (strData "string:") = [[], t] := by
      unfold pySplitOnce
      rw [splitOnceAux_append_self]
    have hcons : pyLower (strData "string:" ++ t)
        = 's' :: (strData "tring:" ++ pyLower t) := by
      rw [hlow]
      rfl
    have hne1 : 's' :: (strData "tring:" ++ pyLower t) ≠ strData "enter" := by
      rw [show strData "enter" = 'e' :: strData "nter" from rfl]
      exact cons_ne_of_head (by decide)
    have hne2 : 's' :: (strData "tring:" ++ pyLower t) ≠ strData "down" := by
      rw [show strData "down" = 'd' :: strData "own" from rfl]
      exact cons_ne_of_head (by decide)
    have hne3 : 's' :: (strData "tring:" ++ pyLower t) ≠ strData "up" := by
      rw [show strData "up" = 'u' :: strData "p" from rfl]
      exact cons_ne_of_head (by decide)
    have hne4 : 's' :: (strData "tring:" ++ pyLower t) ≠ strData "left" := by
      rw [show strData "left" = 'l' :: strData "eft" from rfl]
      exact cons_ne_of_head (by decide)
    have hne5 : 's' :: (strData "tring:" ++ pyLower t) ≠ strData "right" := by
      rw [show strData "right" = 'r' :: strData "ight" from rfl]
      exact cons_ne_of_head (by decide)
    constructor
    · unfold unix_dispatch_action
      rw [hcons, if_neg hne1, if_neg hne2, if_neg hne3, if_neg hne4, if_neg hne5,
        ← hcons, if_pos hpre, hsplit]
    · unfold windows_dispatch_action
      rw [hcons, if_neg hne1, ← hcons, if_pos hpre, hsplit]
  · intro a hpre
    obtain ⟨rest, hrest⟩ := List.isPrefixOf_iff_prefix.mp hpre
    have hcons : pyLower a = 's' :: (strData "tring:" ++ rest) := by
      rw [← hrest]
      rfl
    have hne1 : pyLower a ≠ strData "enter" := by
      rw [hcons, show strData "enter" = 'e' :: strData "nter" from rfl]
      exact cons_ne_of_head (by decide)
    have hne2 : pyLower a ≠ strData "down" := by
      rw [hcons, show strData "down" = 'd' :: strData "own" from rfl]
      exact cons_ne_of_head (by decide)
    have hne3 : pyLower a ≠ strData "up" := by
      rw [hcons, show strData "up" = 'u' :: strData "p" from rfl]
      exact cons_ne_of_head (by decide)
    have hne4 : pyLower a ≠ strData "left" := by
      rw [hcons, show strData "left" = 'l' :: strData "eft" from rfl]
      exact cons_ne_of_head (by decide)
    have hne5 : pyLower a ≠ strData "right" := by
      rw [hcons, show strData "right" = 'r' :: strData "ight" from rfl]
      exact cons_ne_of_head (by decide)
    constructor
    · intro hnone
      have hsplit : pySplitOnce a (strData "string:") = [a] := by
        unfold pySplitOnce
        rw [hnone]
      constructor
      · unfold unix_dispatch_action
        rw [if_neg hne1, if_neg hne2, if_neg hne3, if_neg hne4, if_neg hne5,
          if_pos hpre, hsplit]
      · unfold windows_dispatch_action
        rw [if_neg hne1, if_pos hpre, hsplit]
    · intro pre post hsome
      have hsplit : pySplitOnce a (strData "string:") = [pre, post] := by
        unfold pySplitOnce
        rw [hsome]
      constructor
      · unfold unix_dispatch_action
        rw [if_neg hne1, if_neg hne2, if_neg hne3, if_neg hne4, if_neg hne5,
          if_pos hpre, hsplit]
      · unfold windows_dispatch_action
        rw [if_neg hne1, if_pos hpre, hsplit]

/-- C10 witness: the amended statement applied to the action String colon y,
in which the separator occurs only case-insensitively, so both dispatchers
raise IndexError. -/
theorem C10_witness :
    (strData "string:").isPrefixOf (pyLower (strData "String:y")) = true
    ∧ splitOnceAux (strData "string:") (strData "String:y") = none
    ∧ unix_dispatch_action (strData "String:y") = .error .indexError
    ∧ windows_dispatch_action (strData "String:y") = .error .indexError :=
  ⟨by decide, by decide,
   ((C10_amended.2 (strData "String:y") (by decide)).1 (by decide)).1,
   ((C10_amended.2 (strData "String:y") (by decide)).1 (by decide)).2⟩

/-! ### C7 -/

/-- C7 counterexample: a fatal startup condition raised inside the main try
block, such as the binary being unresolvable, is caught by the except
clause that only prints, so the interpreter exits with status 0, not with a
non-zero code. -/
theorem C7_counterexample :
    process_exit_code (.ok ()) (.error (.exception (strData "Unsupported OS")))
      (fun _ => .ok ()) = 0 := rfl

/-- C7 amended: the process exits non-zero exactly when loading the YAML
configuration at import time fails; every failure raised inside the main
try block, binary resolution and the driver loop included, is caught,
reported and followed by a normal exit with status 0, as is success. -/
theorem C7_amended :
    (∀ (e : PyErr) (d : Except PyErr Str) (r : Str → Except PyErr Unit),
        process_exit_code (.error e) d r = 1)
    ∧ (∀ (d : Except PyErr Str) (r : Str → Except PyErr Unit),
        process_exit_code (.ok ()) d r = 0) := by
  refine ⟨fun e d r => rfl, fun d r => ?_⟩
  unfold process_exit_code
  cases main_try d r <;> rfl

/-! ### C5 -/

/-- C5 counterexample: for the fetched content A and the forwarded line B
the update writes A newline B newline, not A B newline: the code inserts a
leading newline before the appended line, so the claim that the new content
is the old content with exactly the line plus one trailing newline appended
fails. -/
theorem C5_counterexample :
    update_github_file (strData "B") ⟨200, strData "s", strData "A", 200⟩
        = [.githubPut ⟨strData "A\nB\n", strData "s"⟩, .githubPutOk]
    ∧ strData "A\nB\n" ≠ strData "A" ++ strData "B" ++ strData "\n" := by
  exact ⟨rfl, by decide⟩

/-- C5 amended: on a successful fetch the update writes back the fetched
content followed by a newline, the whitespace-stripped line and a newline,
tagged with the sha obtained by the immediately preceding fetch, and
reports the write outcome. -/
theorem C5_amended (msg : Str) (net : Net) (h : net.getStatus = 200) :
    update_github_file msg net
      = .githubPut ⟨net.content ++ strData "\n" ++ pyStrip msg ++ strData "\n", net.sha⟩ ::
          (if net.putStatus = 200 ∨ net.putStatus = 201 then [.githubPutOk]
           else [.githubPutFailed net.putStatus]) := by
  unfold update_github_file
  rw [if_neg]
  rw [h]
  exact fun hne => hne rfl

/-- C5 witness: the amended statement applied to a concrete fetch. -/
theorem C5_witness :
    (⟨200, strData "s", strData "A", 200⟩ : Net).getStatus = 200
    ∧ update_github_file (strData "B") ⟨200, strData "s", strData "A", 200⟩
        = .githubPut ⟨strData "A" ++ strData "\n" ++ pyStrip (strData "B") ++ strData "\n",
            strData "s"⟩ ::
          (if (200 : Nat) = 200 ∨ (200 : Nat) = 201 then [.githubPutOk]
           else [.githubPutFailed 200]) :=
  ⟨rfl, C5_amended (strData "B") ⟨200, strData "s", strData "A", 200⟩ rfl⟩

/-! ### C6 -/

/-- C6: when the fetch of the remote document returns a non-success status
the update reports the failure and returns without attempting a write, and
the Unix loop keeps processing subsequent lines: the concrete run below
forwards two matched lines against a remote that always answers 404 and
both lines are still printed, matched and processed, ending in normal
session termination. -/
theorem C6_fetch_failure_not_fatal :
    (∀ (msg : Str) (net : Net), net.getStatus ≠ 200 →
        update_github_file msg net = [.githubGetFailed net.getStatus])
    ∧ unix_loop (fun _ => ⟨404, [], [], 200⟩) [⟨some (strData "x"), true, []⟩]
        [strData "x1", strData "x2"] 0
      = [.printLine (strData "x1"), .detected (strData "x"), .githubGetFailed 404,
         .printLine (strData "x2"), .detected (strData "x"), .githubGetFailed 404,
         .processEnded] := by
  constructor
  · intro msg net h
    unfold update_github_file
    rw [if_pos h]
  · rfl

/-- C6 witness: the first part applied to a concrete 404 fetch. -/
theorem C6_witness :
    (⟨404, [], [], 200⟩ : Net).getStatus ≠ 200
    ∧ update_github_file (strData "line") ⟨404, [], [], 200⟩ = [.githubGetFailed 404] :=
  ⟨by decide, C6_fetch_failure_not_fatal.1 (strData "line") ⟨404, [], [], 200⟩ (by decide)⟩

/-! ### C3 -/

/-- C3 counterexample: rule evaluation does not always apply every matching
rule. On the line ab with a first rule matching a whose reaction is the
action String:y and a second rule matching b, the reaction raises
IndexError, so only the first rule is reported even though the matchText of
the second also occurs in the line. -/
theorem C3_counterexample :
    detectedKeywords (unix_process_detectors (fun _ => ⟨200, [], [], 200⟩)
        (strData "ab")
        [⟨some (strData "a"), false, [strData "String:y"]⟩,
         ⟨some (strData "b"), false, []⟩] 0).1
      = [strData "a"]
    ∧ (evaluate (strData "ab")
        [⟨some (strData "a"), false, [strData "String:y"]⟩,
         ⟨some (strData "b"), false, []⟩]).map keywordOf
      = [strData "a", strData "b"] :=
  ⟨rfl, rfl⟩

/-- C3 amended: provided every reaction of every rule dispatches without
raising (the String-cased literal of C10 being the only raising case), both
drivers report exactly the rules whose match text is present and nonempty
and occurs as a substring of the target line, in Rule Set order, never
more, never fewer, and raise nothing. -/
theorem C3_amended (oracle : Nat → Net) (line : Str) (ds : List Detector) (k : Nat)
    (h : ∀ d ∈ ds, ∀ a ∈ d.action,
        exceptOk (unix_dispatch_action a) = true
        ∧ exceptOk (windows_dispatch_action a) = true) :
    detectedKeywords (unix_process_detectors oracle line ds k).1
        = (evaluate line ds).map keywordOf
    ∧ detectedKeywords (windows_process_detectors oracle line ds k).1
        = (evaluate line ds).map keywordOf :=
  ⟨(unix_process_detectors_spec oracle line ds k
      (fun d hd a ha => (h d hd a ha).1)).1,
   (windows_process_detectors_spec oracle line ds k
      (fun d hd a ha => (h d hd a ha).2)).1⟩

/-- C3 witness: the amended statement applied to a two-rule set with safe
actions on a line matched by both rules. -/
theorem C3_witness :
    (∀ d ∈ [(⟨some (strData "a"), false, [strData "enter"]⟩ : Detector),
            ⟨some (strData "b"), true, []⟩], ∀ a ∈ d.action,
        exceptOk (unix_dispatch_action a) = true
        ∧ exceptOk (windows_dispatch_action a) = true)
    ∧ detectedKeywords (unix_process_detectors (fun _ => ⟨200, [], [], 200⟩)
        (strData "ab")
        [⟨some (strData "a"), false, [strData "enter"]⟩,
         ⟨some (strData "b"), true, []⟩] 0).1
      = (evaluate (strData "ab")
          [⟨some (strData "a"), false, [strData "enter"]⟩,
           ⟨some (strData "b"), true, []⟩]).map keywordOf :=
  ⟨by decide,
   (C3_amended (fun _ => ⟨200, [], [], 200⟩) (strData "ab")
      [⟨some (strData "a"), false, [strData "enter"]⟩,
       ⟨some (strData "b"), true, []⟩] 0 (by decide)).1⟩

/-! ### C4 -/

/-- C4 counterexample: in the pipe driver an unrecognized reaction is
skipped silently, with no reported diagnostic. Running the actions teleport
then enter through the Windows dispatcher emits only the enter send and no
unknown-action report, so the claim that both drivers report a diagnostic
fails; the subsequent reaction does still execute and nothing is raised. -/
theorem C4_counterexample :
    dispatch_actions windows_dispatch_action [strData "teleport", strData "enter"]
        = ([.send (strData "\n")], none)
    ∧ (dispatch_actions windows_dispatch_action
        [strData "teleport", strData "enter"]).1.all
        (fun e => match e with | .unknownAction _ => false | _ => true) = true :=
  ⟨rfl, rfl⟩

/-- C4 amended: for every action recognized by neither driver, the
pseudo-terminal driver skips it with an unknown-action diagnostic while the
pipe driver skips it silently with no diagnostic; in both drivers the
unrecognized action raises nothing and every subsequent action in the same
list still executes. -/
theorem C4_amended (a : Str)
    (h1 : pyLower a ≠ strData "enter") (h2 : pyLower a ≠ strData "down")
    (h3 : pyLower a ≠ strData "up") (h4 : pyLower a ≠ strData "left")
    (h5 : pyLower a ≠ strData "right")
    (h6 : (strData "string:").isPrefixOf (pyLower a) = false) :
    unix_dispatch_action a = .ok [.unknownAction a]
    ∧ windows_dispatch_action a = .ok []
    ∧ (∀ rest, dispatch_actions unix_dispatch_action (a :: rest)
        = (.unknownAction a :: (dispatch_actions unix_dispatch_action rest).1,
           (dispatch_actions unix_dispatch_action rest).2))
    ∧ (∀ rest, dispatch_actions windows_dispatch_action (a :: rest)
        = dispatch_actions windows_dispatch_action rest) := by
  have h6' : ¬((strData "string:").isPrefixOf (pyLower a) = true) := by
    rw [h6]
    simp
  have hu : unix_dispatch_action a = .ok [.unknownAction a] := by
    unfold unix_dispatch_action
    rw [if_neg h1, if_neg h2, if_neg h3, if_neg h4, if_neg h5, if_neg h6']
  have hw : windows_dispatch_action a = .ok [] := by
    unfold windows_dispatch_action
    rw [if_neg h1, if_neg h6']
  refine ⟨hu, hw, fun rest => ?_, fun rest => ?_⟩
  · show (match unix_dispatch_action a with
        | .error e => (([] : List Event), some e)
        | .ok evs => (evs ++ (dispatch_actions unix_dispatch_action rest).1,
            (dispatch_actions unix_dispatch_action rest).2))
      = _
    rw [hu]
    rfl
  · show (match windows_dispatch_action a with
        | .error e => (([] : List Event), some e)
        | .ok evs => (evs ++ (dispatch_actions windows_dispatch_action rest).1,
            (dispatch_actions windows_dispatch_action rest).2))
      = _
    rw [hw]
    rfl

/-- C4 witness: the amended statement applied to the action teleport
followed by the action enter. -/
theorem C4_witness :
    pyLower (strData "teleport") ≠ strData "enter"
    ∧ unix_dispatch_action (strData "teleport")
        = .ok [.unknownAction (strData "teleport")]
    ∧ dispatch_actions windows_dispatch_action [strData "teleport", strData "enter"]
        = dispatch_actions windows_dispatch_action [strData "enter"] :=
  ⟨by decide,
   (C4_amended (strData "teleport") (by decide) (by decide) (by decide)
      (by decide) (by decide) (by decide)).1,
   (C4_amended (strData "teleport") (by decide) (by decide) (by decide)
      (by decide) (by decide) (by decide)).2.2.2 [strData "enter"]⟩

/-! ### C1 -/

/-- C1 counterexample: the pseudo-terminal driver does not match against
the cleaned line. For the raw chunk fo ESC [ m o, whose cleaned form is
foo, a rule with matchText foo reports no match in the Unix driver even
though foo is a substring of the cleaned line, because the driver searches
the raw line. -/
theorem C1_counterexample :
    Event.detected (strData "foo")
        ∉ (unix_process_line (fun _ => ⟨200, [], [], 200⟩)
            [⟨some (strData "foo"), false, []⟩] (strData "fo\x1b[mo") 0).1
    ∧ pyIn (strData "foo") (strip_ansi_codes (pyStrip (strData "fo\x1b[mo"))) = true :=
  ⟨by decide, by decide⟩

/-- C1 amended: the pipe driver compares matchText against the cleaned
line, but the pseudo-terminal driver compares it against the raw
whitespace-stripped line before control sequences are removed: a nonempty
keyword is reported on a nonempty line exactly when it occurs in the raw
line in the Unix driver and exactly when it occurs in the cleaned line in
the Windows driver. -/
theorem C1_amended (oracle : Nat → Net) (raw kw : Str) (k : Nat)
    (hkw : kw ≠ []) (hline : pyStrip raw ≠ []) :
    (Event.detected kw ∈ (unix_process_line oracle [⟨some kw, false, []⟩] raw k).1
      ↔ pyIn kw (pyStrip raw) = true)
    ∧ (Event.detected kw ∈ (windows_process_line oracle [⟨some kw, false, []⟩] raw k).1
      ↔ pyIn kw (strip_ansi_codes (pyStrip raw)) = true) := by
  have hke : kw.isEmpty = false := List.isEmpty_eq_false.mpr hkw
  constructor
  · by_cases hin : pyIn kw (pyStrip raw) = true
    · have hc : (!kw.isEmpty && pyIn kw (pyStrip raw)) = true := by
        rw [hke, hin]
        rfl
      have hdet : unix_process_detector oracle (pyStrip raw) ⟨some kw, false, []⟩ k
          = ([.detected kw], k, none) := if_pos hc
      have hds := unix_process_detectors_one_ok oracle (pyStrip raw)
        ⟨some kw, false, []⟩ k (by rw [hdet])
      rw [hdet] at hds
      have hl : (unix_process_line oracle [⟨some kw, false, []⟩] raw k).1
          = [.printLine (unix_cleaned (pyStrip raw)), .detected kw] := by
        simp only [unix_process_line]
        rw [if_neg hline, hds]
      rw [hl]
      simp [hin]
    · have hc : ¬((!kw.isEmpty && pyIn kw (pyStrip raw)) = true) := by
        rw [hke]
        simpa using hin
      have hdet : unix_process_detector oracle (pyStrip raw) ⟨some kw, false, []⟩ k
          = ([], k, none) := if_neg hc
      have hds := unix_process_detectors_one_ok oracle (pyStrip raw)
        ⟨some kw, false, []⟩ k (by rw [hdet])
      rw [hdet] at hds
      have hl : (unix_process_line oracle [⟨some kw, false, []⟩] raw k).1
          = [.printLine (unix_cleaned (pyStrip raw))] := by
        simp only [unix_process_line]
        rw [if_neg hline, hds]
      rw [hl]
      simp [hin]
  · by_cases hin : pyIn kw (strip_ansi_codes (pyStrip raw)) = true
    · have hc : (!kw.isEmpty && pyIn kw (strip_ansi_codes (pyStrip raw))) = true := by
        rw [hke, hin]
        rfl
      have hdet : windows_process_detector oracle (strip_ansi_codes (pyStrip raw))
          ⟨some kw, false, []⟩ k = ([.detected kw], k, none) := if_pos hc
      have hds := windows_process_detectors_one_ok oracle
        (strip_ansi_codes (pyStrip raw)) ⟨some kw, false, []⟩ k (by rw [hdet])
      rw [hdet] at hds
      have hl : (windows_process_line oracle [⟨some kw, false, []⟩] raw k).1
          = [.printLine (strip_ansi_codes (pyStrip raw)), .detected kw] := by
        simp only [windows_process_line]
        rw [hds]
      rw [hl]
      simp [hin]
    · have hc : ¬((!kw.isEmpty && pyIn kw (strip_ansi_codes (pyStrip raw))) = true) := by
        rw [hke]
        simpa using hin
      have hdet : windows_process_detector oracle (strip_ansi_codes (pyStrip raw))
          ⟨some kw, false, []⟩ k = ([], k, none) := if_neg hc
      have hds := windows_process_detectors_one_ok oracle
        (strip_ansi_codes (pyStrip raw)) ⟨some kw, false, []⟩ k (by rw [hdet])
      rw [hdet] at hds
      have hl : (windows_process_line oracle [⟨some kw, false, []⟩] raw k).1
          = [.printLine (strip_ansi_codes (pyStrip raw))] := by
        simp only [windows_process_line]
        rw [hds]
      rw [hl]
      simp [hin]

/-- C1 witness: the amended statement applied to the raw chunk fo ESC [ m o
and the keyword foo: the Unix driver reports no match while the Windows
driver reports one. -/
theorem C1_witness :
    (strData "foo" ≠ [] ∧ pyStrip (strData "fo\x1b[mo") ≠ [])
    ∧ (Event.detected (strData "foo")
        ∈ (windows_process_line (fun _ => ⟨200, [], [], 200⟩)
            [⟨some (strData "foo"), false, []⟩] (strData "fo\x1b[mo") 0).1
      ↔ pyIn (strData "foo") (strip_ansi_codes (pyStrip (strData "fo\x1b[mo"))) = true) :=
  ⟨⟨by decide, by decide⟩,
   (C1_amended (fun _ => ⟨200, [], [], 200⟩) (strData "fo\x1b[mo") (strData "foo") 0
      (by decide) (by decide)).2⟩

/-! ### C8 -/

/-- C8 counterexample: the caret artifact cleanup is not a trim of the
artifact from the front only. On the chunk caret bracket bracket B f o o
bracket bracket B, trimming the artifact from the front gives foo bracket
bracket B, but the driver prints foo: the str.strip call with a character
set also removes the trailing bracket and B characters. -/
theorem C8_counterexample :
    (unix_process_line (fun _ => ⟨200, [], [], 200⟩) [] (strData "^[[Bfoo[[B") 0).1
        = [.printLine (strData "foo")]
    ∧ spec_front_trim (strip_ansi_codes (pyStrip (strData "^[[Bfoo[[B")))
        = strData "foo[[B"
    ∧ strData "foo" ≠ strData "foo[[B" :=
  ⟨rfl, rfl, by decide⟩

/-- C8 amended: when the cleaned line begins with the caret artifact, all
leading and trailing characters drawn from the artifact character set are
removed, by Python str.strip with an argument, and it is this set-stripped
form that is both printed and forwarded; the cleanup is a total function
and the loop is not aborted by it. -/
theorem C8_amended (oracle : Nat → Net) (raw kw : Str) (k : Nat)
    (hline : pyStrip raw ≠ [])
    (hpre : caretArtifact.isPrefixOf (strip_ansi_codes (pyStrip raw)) = true)
    (hkw : kw ≠ []) (hin : pyIn kw (pyStrip raw) = true) :
    unix_process_line oracle [⟨some kw, true, []⟩] raw k
      = ([.printLine (pyStripChars caretArtifact (strip_ansi_codes (pyStrip raw))),
          .detected kw]
          ++ update_github_file
              (pyStripChars caretArtifact (strip_ansi_codes (pyStrip raw))) (oracle k),
         k + 1, none) := by
  have hke : kw.isEmpty = false := List.isEmpty_eq_false.mpr hkw
  have hc : (!kw.isEmpty && pyIn kw (pyStrip raw)) = true := by
    rw [hke, hin]
    rfl
  have hcl : unix_cleaned (pyStrip raw)
      = pyStripChars caretArtifact (strip_ansi_codes (pyStrip raw)) := by
    unfold unix_cleaned
    rw [if_pos hpre]
  have hdet : unix_process_detector oracle (pyStrip raw) ⟨some kw, true, []⟩ k
      = (.detected kw :: update_github_file (unix_cleaned (pyStrip raw)) (oracle k) ++ [],
         k + 1, none) := if_pos hc
  rw [List.append_nil] at hdet
  have hds := unix_process_detectors_one_ok oracle (pyStrip raw)
    ⟨some kw, true, []⟩ k (by rw [hdet])
  rw [hdet] at hds
  simp only [unix_process_line]
  rw [if_neg hline, hds, hcl]
  rfl

/-- C8 witness: the amended statement applied to a concrete artifact-headed
chunk with a matching forwarding rule. -/
theorem C8_witness :
    (pyStrip (strData "^[[Bfoo[[B") ≠ []
      ∧ caretArtifact.isPrefixOf (strip_ansi_codes (pyStrip (strData "^[[Bfoo[[B"))) = true
      ∧ pyIn (strData "foo") (pyStrip (strData "^[[Bfoo[[B")) = true)
    ∧ unix_process_line (fun _ => ⟨200, strData "s", strData "A", 200⟩)
        [⟨some (strData "foo"), true, []⟩] (strData "^[[Bfoo[[B") 0
      = ([.printLine (pyStripChars caretArtifact
            (strip_ansi_codes (pyStrip (strData "^[[Bfoo[[B")))),
          .detected (strData "foo")]
          ++ update_github_file
              (pyStripChars caretArtifact
                (strip_ansi_codes (pyStrip (strData "^[[Bfoo[[B"))))
              ((fun _ => (⟨200, strData "s", strData "A", 200⟩ : Net)) 0),
         0 + 1, none) :=
  ⟨⟨by decide, by decide, by decide⟩,
   C8_amended (fun _ => ⟨200, strData "s", strData "A", 200⟩) (strData "^[[Bfoo[[B")
      (strData "foo") 0 (by decide) (by decide) (by decide) (by decide)⟩

end Vsxploit
